import Mathlib

/-!
Verification of the Image Asset Store of the vgsbackend server.

The embedding follows src/server.js:
  - the multer diskStorage filename callback (sanitization and filename
    generation),
  - GET /api/images/:key   (lookup),
  - POST /api/upload       (upload or replace, with old-file cleanup),
  - DELETE /api/images/:key (delete, with file cleanup).

State is a pair of a metadata collection (the pics documents, a list of
records with a unique key index) and the set of files in the uploads
directory (a list of filenames).  Database writes that can fail are given
an explicit success flag; the asynchronous fs.unlink calls, whose errors
the code swallows with an empty callback, are modelled as taking effect at
their initiation point, with a flag for whether the physical unlink
succeeds.
-/

namespace Vgs

/-- A character accepted by the sanitizing regular expression
class in the filename callback, which keeps a-z, A-Z, 0-9 and
the dot, hyphen and underscore. -/
def isSafeChar (c : Char) : Bool :=
  (decide (Char.ofNat 97 ≤ c) && decide (c ≤ Char.ofNat 122)) ||
  (decide (Char.ofNat 65 ≤ c) && decide (c ≤ Char.ofNat 90)) ||
  (decide (Char.ofNat 48 ≤ c) && decide (c ≤ Char.ofNat 57)) ||
  c == Char.ofNat 46 || c == Char.ofNat 45 || c == Char.ofNat 95

/-- file.originalname.replace of every character outside the safe class
with an underscore. -/
def sanitizeName (s : String) : String :=
  String.mk (s.data.map (fun c => if isSafeChar c then c else Char.ofNat 95))

/-- The Blob Store naming scheme: timestamp, key hint and sanitized
original name joined by underscores. -/
def putFileRef (now : Nat) (keyHint : String) (orig : String) : String :=
  toString now ++ "_" ++ keyHint ++ "_" ++ sanitizeName orig

/-- JavaScript truthiness of an optional string field: undefined and the
empty string are falsy. -/
def jsTruthy : Option String → Bool
  | none => false
  | some s => s != ""

/-- The multer filename callback: req.body.key when truthy, the literal
string image otherwise, fed to the naming scheme. -/
def multerFilename (now : Nat) (bodyKey : Option String) (orig : String) : String :=
  putFileRef now (if jsTruthy bodyKey then bodyKey.getD "" else "image") orig

/-- An uppercase hexadecimal digit. -/
def hexDigit (n : Nat) : Char :=
  if n < 10 then Char.ofNat (48 + n) else Char.ofNat (55 + n)

/-- The UTF-8 bytes of a character, from its code point. -/
def utf8Bytes (c : Char) : List Nat :=
  let n := c.toNat
  if n < 128 then [n]
  else if n < 2048 then [192 + n / 64, 128 + n % 64]
  else if n < 65536 then [224 + n / 4096, 128 + (n / 64) % 64, 128 + n % 64]
  else [240 + n / 262144, 128 + (n / 4096) % 64, 128 + (n / 64) % 64, 128 + n % 64]

/-- A percent-encoded byte. -/
def pctByte (b : Nat) : String :=
  String.mk [Char.ofNat 37, hexDigit (b / 16), hexDigit (b % 16)]

/-- A character left intact by encodeURIComponent: alphanumeric or one of
- _ . ! ~ * and the quote and parenthesis characters. -/
def isUriUnreserved (c : Char) : Bool :=
  let n := c.toNat
  (97 ≤ n && n ≤ 122) || (65 ≤ n && n ≤ 90) || (48 ≤ n && n ≤ 57) ||
  n == 45 || n == 95 || n == 46 || n == 33 || n == 126 || n == 42 ||
  n == 39 || n == 40 || n == 41

/-- The JavaScript encodeURIComponent builtin: unreserved characters kept,
every other character replaced by the percent-encoding of its UTF-8
bytes. -/
def encodeURIComponent (s : String) : String :=
  String.join (s.data.map (fun c =>
    if isUriUnreserved c then String.mk [c] else String.join ((utf8Bytes c).map pctByte)))

/-- BASE_URL with its default value. -/
def baseUrl : String := "http://localhost:4000"

/-- The public URL of an uploaded file. -/
def publicUrl (fname : String) : String :=
  baseUrl ++ "/uploads/" ++ encodeURIComponent fname

/-- A document of the pics collection. -/
structure AssetRecord where
  key : String
  url : String
  filename : String
deriving DecidableEq, Repr

/-- The combined state: the pics collection and the files present in the
uploads directory. -/
structure StoreState where
  meta : List AssetRecord
  blob : List String
deriving DecidableEq, Repr

/-- Image.findOne on the key: the first document whose key matches. -/
def findOne (m : List AssetRecord) (k : String) : Option AssetRecord :=
  m.find? (fun r => r.key == k)

/-- Image.findOneAndUpdate with upsert and new: replace the first document
with the given key, or insert the document when none matches. -/
def upsertMeta (m : List AssetRecord) (r : AssetRecord) : List AssetRecord :=
  match m with
  | [] => [r]
  | x :: xs => if x.key == r.key then r :: xs else x :: upsertMeta xs r

/-- Image.findOneAndDelete: remove and return the first document with the
given key. -/
def findOneAndDelete (m : List AssetRecord) (k : String) :
    Option AssetRecord × List AssetRecord :=
  match m with
  | [] => (none, [])
  | x :: xs =>
    if x.key == k then (some x, xs)
    else
      let p := findOneAndDelete xs k
      (p.fst, x :: p.snd)

/-- The existsSync guard followed by fs.unlink with an empty error
callback: nothing happens when the file is absent, and a failing unlink
leaves the directory unchanged without surfacing an error. -/
def removeFile (blob : List String) (f : String) (unlinkOk : Bool) : List String :=
  if f ∈ blob then (if unlinkOk then blob.erase f else blob) else blob

/-- The JSON responses of the POST /api/upload handler. -/
inductive UploadResult where
  | missingKey
  | noFile
  | ok (key url : String)
  | serverError
deriving DecidableEq, Repr

/-- The JSON responses of the GET /api/images/:key handler. -/
inductive LookupResult where
  | ok (key url : String)
  | notFound
deriving DecidableEq, Repr

/-- The JSON responses of the DELETE /api/images/:key handler. -/
inductive DeleteResult where
  | ok (key : String)
deriving DecidableEq, Repr

/-- GET /api/images/:key. -/
def lookupApi (st : StoreState) (k : String) : LookupResult :=
  match findOne st.meta k with
  | none => .notFound
  | some d => .ok d.key d.url

/-- POST /api/upload.  genKey is the key field visible to the multer
filename callback when the file part is parsed (none when the field
arrives after the file), bodyKey is the field the handler reads after the
whole body is parsed, file is the original name of the uploaded file part
when one is present.  upsertOk injects a failure of findOneAndUpdate,
which the try block converts to the 500 response; unlinkOk is whether the
initiated fs.unlink of the old file succeeds on disk. -/
def uploadApi (st : StoreState) (now : Nat) (genKey bodyKey : Option String)
    (file : Option String) (upsertOk unlinkOk : Bool) : UploadResult × StoreState :=
  match file with
  | none =>
    if jsTruthy bodyKey then (.noFile, st) else (.missingKey, st)
  | some orig =>
    let fname := multerFilename now genKey orig
    let blob1 := fname :: st.blob
    if jsTruthy bodyKey then
      let k := bodyKey.getD ""
      let fileUrl := publicUrl fname
      let blob2 :=
        match findOne st.meta k with
        | some ex =>
          if ex.filename ≠ "" ∧ ex.filename ≠ fname then
            removeFile blob1 ex.filename unlinkOk
          else blob1
        | none => blob1
      if upsertOk then
        (.ok k fileUrl, ⟨upsertMeta st.meta ⟨k, fileUrl, fname⟩, blob2⟩)
      else
        (.serverError, ⟨st.meta, blob2⟩)
    else
      (.missingKey, ⟨st.meta, blob1⟩)

/-- DELETE /api/images/:key. -/
def deleteApi (st : StoreState) (k : String) (unlinkOk : Bool) :
    DeleteResult × StoreState :=
  let p := findOneAndDelete st.meta k
  let blob2 :=
    match p.fst with
    | some d => if d.filename ≠ "" then removeFile st.blob d.filename unlinkOk else st.blob
    | none => st.blob
  (.ok k, ⟨p.snd, blob2⟩)

/-- Modelled from the spec wording for comparison with isSafeChar: a
character of the class the spec allows in sanitized names, alphanumeric
or dot, hyphen, underscore. -/
def inFileSafeClass (a : Char) : Prop :=
  (Char.ofNat 97 ≤ a ∧ a ≤ Char.ofNat 122) ∨ (Char.ofNat 65 ≤ a ∧ a ≤ Char.ofNat 90) ∨
  (Char.ofNat 48 ≤ a ∧ a ≤ Char.ofNat 57) ∨ a = Char.ofNat 46 ∨ a = Char.ofNat 45 ∨
  a = Char.ofNat 95

instance (a : Char) : Decidable (inFileSafeClass a) := by
  unfold inFileSafeClass
  infer_instance

/-! Helper lemmas about the metadata collection. -/

theorem isSafeChar_iff (a : Char) : isSafeChar a = true ↔ inFileSafeClass a := by
  simp only [isSafeChar, inFileSafeClass, Bool.or_eq_true, Bool.and_eq_true,
    decide_eq_true_eq, beq_iff_eq]
  tauto

theorem mem_removeFile_of_ne (blob : List String) (f a : String) (ok : Bool)
    (hne : a ≠ f) (ha : a ∈ blob) : a ∈ removeFile blob f ok := by
  unfold removeFile
  split
  · split
    · exact (List.mem_erase_of_ne hne).mpr ha
    · exact ha
  · exact ha

theorem findOne_eq_none_of_not_mem (m : List AssetRecord) (k : String)
    (h : k ∉ m.map AssetRecord.key) : findOne m k = none := by
  induction m with
  | nil => rfl
  | cons x xs ih =>
    simp only [List.map_cons, List.mem_cons, not_or] at h
    have hx : (x.key == k) = false := by
      simp only [beq_eq_false_iff_ne, ne_eq]
      exact fun hkx => h.1 hkx.symm
    simp only [findOne, List.find?_cons, hx]
    exact ih h.2

theorem findOne_upsertMeta_self (m : List AssetRecord) (r : AssetRecord) :
    findOne (upsertMeta m r) r.key = some r := by
  induction m with
  | nil => simp [upsertMeta, findOne, List.find?]
  | cons x xs ih =>
    cases hbeq : x.key == r.key with
    | true => simp [upsertMeta, hbeq, findOne, List.find?]
    | false =>
      simp only [upsertMeta, hbeq, Bool.false_eq_true, if_false, findOne,
        List.find?_cons, hbeq]
      exact ih

theorem findOneAndDelete_eq_of_findOne_none (m : List AssetRecord) (k : String)
    (h : findOne m k = none) : findOneAndDelete m k = (none, m) := by
  induction m with
  | nil => rfl
  | cons x xs ih =>
    cases hbeq : x.key == k with
    | true => simp [findOne, List.find?_cons, hbeq] at h
    | false =>
      simp only [findOne, List.find?_cons, hbeq] at h
      simp [findOneAndDelete, hbeq, ih h]

theorem findOne_findOneAndDelete_snd (m : List AssetRecord) (k : String)
    (hnd : (m.map AssetRecord.key).Nodup) :
    findOne (findOneAndDelete m k).snd k = none := by
  induction m with
  | nil => rfl
  | cons x xs ih =>
    rw [List.map_cons, List.nodup_cons] at hnd
    obtain ⟨hx, hxs⟩ := hnd
    cases hbeq : x.key == k with
    | true =>
      have hk : x.key = k := by simpa using hbeq
      simp only [findOneAndDelete, hbeq, if_true]
      exact findOne_eq_none_of_not_mem xs k (hk ▸ hx)
    | false =>
      simp only [findOneAndDelete, hbeq, Bool.false_eq_true, if_false, findOne,
        List.find?_cons, hbeq]
      exact ih hxs

/-! The claims. -/

/-- C1 counterexample.  With a record for key k backed by old.png, an
upload of new.png to k whose findOneAndUpdate fails returns the 500
response with the metadata record for k still pointing at old.png, yet
old.png is no longer in the uploads directory: the unlink was initiated
before the upsert, so the claimed after-the-upsert ordering is false. -/
theorem C1_counterexample :
    (uploadApi ⟨[⟨"k", "u", "old.png"⟩], ["old.png"]⟩ 1 (some "k") (some "k")
      (some "new.png") false true).fst = UploadResult.serverError ∧
    findOne (uploadApi ⟨[⟨"k", "u", "old.png"⟩], ["old.png"]⟩ 1 (some "k") (some "k")
      (some "new.png") false true).snd.meta "k" = some ⟨"k", "u", "old.png"⟩ ∧
    "old.png" ∉ (uploadApi ⟨[⟨"k", "u", "old.png"⟩], ["old.png"]⟩ 1 (some "k") (some "k")
      (some "new.png") false true).snd.blob := by
  refine ⟨rfl, rfl, ?_⟩
  decide

/-- C1 amended.  In the upload handler the removal of the old file is
initiated before the metadata upsert, not after it: whenever the upsert
fails, the handler returns the 500 response with the metadata collection
unchanged (the record for key still references the old filename), and the
old file, present exactly once on disk, has already been removed from the
uploads directory. -/
theorem C1_unlink_precedes_upsert (st : StoreState) (now : Nat) (k orig : String)
    (ex : AssetRecord) (hk : k ≠ "")
    (hfind : findOne st.meta k = some ex)
    (hex : ex.filename ≠ "")
    (hne : ex.filename ≠ multerFilename now (some k) orig)
    (hcount : st.blob.count ex.filename = 1) :
    (uploadApi st now (some k) (some k) (some orig) false true).fst
      = UploadResult.serverError ∧
    (uploadApi st now (some k) (some k) (some orig) false true).snd.meta = st.meta ∧
    ex.filename ∉ (uploadApi st now (some k) (some k) (some orig) false true).snd.blob := by
  have ht : jsTruthy (some k) = true := by
    simp [jsTruthy, hk]
  have hmem : ex.filename ∈ st.blob := by
    rw [← List.count_pos_iff]
    omega
  have hmem1 : ex.filename ∈ multerFilename now (some k) orig :: st.blob :=
    List.mem_cons_of_mem _ hmem
  have herase : (multerFilename now (some k) orig :: st.blob).erase ex.filename
      = multerFilename now (some k) orig :: st.blob.erase ex.filename :=
    List.erase_cons_tail (not_beq_of_ne (fun h => hne h.symm))
  have heq : uploadApi st now (some k) (some k) (some orig) false true
      = (UploadResult.serverError,
         ⟨st.meta, multerFilename now (some k) orig :: st.blob.erase ex.filename⟩) := by
    simp only [uploadApi, ht, if_true, Option.getD_some, hfind, removeFile]
    simp only [Bool.false_eq_true, if_false]
    rw [if_pos (And.intro hex hne), if_pos hmem1, herase]
  rw [heq]
  refine ⟨rfl, rfl, ?_⟩
  intro hcon
  rcases List.mem_cons.mp hcon with h1 | h1
  · exact hne h1
  · have h0 : (st.blob.erase ex.filename).count ex.filename = 0 := by
      rw [List.count_erase_self, hcount]
    exact (List.count_eq_zero.mp h0) h1

/-- C1 amended witness at a concrete store. -/
theorem C1_unlink_precedes_upsert_witness :
    (uploadApi ⟨[⟨"k", "u", "old.png"⟩], ["old.png"]⟩ 2 (some "k") (some "k")
      (some "n.png") false true).fst = UploadResult.serverError ∧
    (uploadApi ⟨[⟨"k", "u", "old.png"⟩], ["old.png"]⟩ 2 (some "k") (some "k")
      (some "n.png") false true).snd.meta = [⟨"k", "u", "old.png"⟩] ∧
    "old.png" ∉ (uploadApi ⟨[⟨"k", "u", "old.png"⟩], ["old.png"]⟩ 2 (some "k") (some "k")
      (some "n.png") false true).snd.blob :=
  C1_unlink_precedes_upsert ⟨[⟨"k", "u", "old.png"⟩], ["old.png"]⟩ 2 "k" "n.png"
    ⟨"k", "u", "old.png"⟩ (by decide) rfl (by decide) (by decide) (by decide)

/-- C2.  A successful upload of a file under a key, immediately followed
by a lookup of that key, returns exactly the url the upload returned. -/
theorem C2_upload_then_lookup (st : StoreState) (now : Nat) (k orig u : String)
    (unlinkOk : Bool)
    (hres : (uploadApi st now (some k) (some k) (some orig) true unlinkOk).fst
      = UploadResult.ok k u) :
    lookupApi (uploadApi st now (some k) (some k) (some orig) true unlinkOk).snd k
      = LookupResult.ok k u := by
  cases ht : jsTruthy (some k) with
  | false => simp [uploadApi, ht] at hres
  | true =>
    simp only [uploadApi, ht, if_true, Option.getD_some] at hres ⊢
    have hu : u = publicUrl (multerFilename now (some k) orig) := by
      cases hres
      rfl
    subst hu
    simp only [lookupApi]
    rw [show k = (AssetRecord.mk k (publicUrl (multerFilename now (some k) orig))
      (multerFilename now (some k) orig)).key from rfl]
    rw [findOne_upsertMeta_self]

/-- C2 witness: uploading a.png under logo into the empty store, then
looking logo up. -/
theorem C2_upload_then_lookup_witness :
    lookupApi (uploadApi ⟨[], []⟩ 1 (some "logo") (some "logo") (some "a.png")
      true true).snd "logo"
      = LookupResult.ok "logo" "http://localhost:4000/uploads/1_logo_a.png" :=
  C2_upload_then_lookup ⟨[], []⟩ 1 "logo" "a.png"
    "http://localhost:4000/uploads/1_logo_a.png" true rfl

/-- C3.  Under the unique key index of the pics collection, deleting a key
and immediately looking it up returns the 404 NotFound response, whether
or not a record for the key existed. -/
theorem C3_delete_then_lookup (st : StoreState) (k : String) (unlinkOk : Bool)
    (hnd : (st.meta.map AssetRecord.key).Nodup) :
    lookupApi (deleteApi st k unlinkOk).snd k = LookupResult.notFound := by
  simp only [deleteApi, lookupApi]
  rw [findOne_findOneAndDelete_snd st.meta k hnd]

/-- C3 witness at a two-record store. -/
theorem C3_delete_then_lookup_witness :
    lookupApi (deleteApi ⟨[⟨"a", "u1", "f1"⟩, ⟨"b", "u2", "f2"⟩], ["f1", "f2"]⟩
      "a" true).snd "a" = LookupResult.notFound :=
  C3_delete_then_lookup ⟨[⟨"a", "u1", "f1"⟩, ⟨"b", "u2", "f2"⟩], ["f1", "f2"]⟩
    "a" true (by decide)

/-- C4.  The delete handler responds success with the key for every store
state and every key, in particular when no record for the key exists; it
never responds NotFound or an error. -/
theorem C4_delete_always_success (st : StoreState) (k : String) (unlinkOk : Bool) :
    (deleteApi st k unlinkOk).fst = DeleteResult.ok k := rfl

/-- C5.  File cleanup is best effort: removing an absent file is a no-op
whether or not the unlink could succeed, and whether an initiated unlink
succeeds never changes the response of the upload or delete handler that
triggered it. -/
theorem C5_cleanup_best_effort (blob : List String) (f : String)
    (st st2 : StoreState) (now : Nat) (genKey bodyKey : Option String)
    (file : Option String) (upsertOk : Bool) (k : String)
    (habs : f ∉ blob) :
    removeFile blob f true = blob ∧ removeFile blob f false = blob ∧
    (uploadApi st now genKey bodyKey file upsertOk true).fst
      = (uploadApi st now genKey bodyKey file upsertOk false).fst ∧
    (deleteApi st2 k true).fst = (deleteApi st2 k false).fst := by
  refine ⟨by simp [removeFile, habs], by simp [removeFile, habs], ?_, rfl⟩
  cases file with
  | none => rfl
  | some orig =>
    cases ht : jsTruthy bodyKey with
    | false => simp [uploadApi, ht]
    | true =>
      simp only [uploadApi, ht, if_true]
      cases upsertOk <;> rfl

/-- C5 witness. -/
theorem C5_cleanup_best_effort_witness :
    removeFile ["a"] "b" true = ["a"] ∧ removeFile ["a"] "b" false = ["a"] ∧
    (uploadApi ⟨[], []⟩ 1 (some "k") (some "k") (some "x.png") true true).fst
      = (uploadApi ⟨[], []⟩ 1 (some "k") (some "k") (some "x.png") true false).fst ∧
    (deleteApi ⟨[⟨"k", "u", "f"⟩], ["f"]⟩ "k" true).fst
      = (deleteApi ⟨[⟨"k", "u", "f"⟩], ["f"]⟩ "k" false).fst :=
  C5_cleanup_best_effort ["a"] "b" ⟨[], []⟩ ⟨[⟨"k", "u", "f"⟩], ["f"]⟩ 1
    (some "k") (some "k") (some "x.png") true "k" (by decide)

/-- C6.  The generated fileRef is the timestamp, the key hint and the
sanitized original name joined by underscores, and sanitization maps the
original name character by character, keeping exactly the characters of
the allowed class and replacing every other character by an underscore. -/
theorem C6_put_fileRef_format (now : Nat) (keyHint orig : String) :
    putFileRef now keyHint orig
      = toString now ++ "_" ++ keyHint ++ "_" ++ sanitizeName orig ∧
    List.Forall₂
      (fun a b => (inFileSafeClass a → b = a) ∧ (¬ inFileSafeClass a → b = Char.ofNat 95))
      orig.data (sanitizeName orig).data := by
  refine ⟨rfl, ?_⟩
  show List.Forall₂ _ orig.data
    (orig.data.map (fun c => if isSafeChar c then c else Char.ofNat 95))
  induction orig.data with
  | nil => exact List.Forall₂.nil
  | cons c cs ih =>
    refine List.Forall₂.cons ⟨fun hin => ?_, fun hout => ?_⟩ ih
    · have hc : isSafeChar c = true := (isSafeChar_iff c).mpr hin
      simp [hc]
    · have hc : isSafeChar c = false :=
        Bool.eq_false_iff.mpr (fun hc => hout ((isSafeChar_iff c).mp hc))
      simp [hc]

/-- C7.  An upload whose key field is empty or missing after body parsing
gets the 400 missing-key response, leaves the metadata collection
untouched, and changes the uploads directory only by the single file
multer already wrote. -/
theorem C7_missing_key_validation (st : StoreState) (now : Nat)
    (genKey bodyKey : Option String) (orig : String) (upsertOk unlinkOk : Bool)
    (hk : jsTruthy bodyKey = false) :
    (uploadApi st now genKey bodyKey (some orig) upsertOk unlinkOk).fst
      = UploadResult.missingKey ∧
    (uploadApi st now genKey bodyKey (some orig) upsertOk unlinkOk).snd.meta = st.meta ∧
    (uploadApi st now genKey bodyKey (some orig) upsertOk unlinkOk).snd.blob
      = multerFilename now genKey orig :: st.blob := by
  simp [uploadApi, hk]

/-- C7 witness: uploading with no key field at all. -/
theorem C7_missing_key_validation_witness :
    (uploadApi ⟨[⟨"k", "u", "f"⟩], ["f"]⟩ 3 none none (some "a.png") true true).fst
      = UploadResult.missingKey ∧
    (uploadApi ⟨[⟨"k", "u", "f"⟩], ["f"]⟩ 3 none none (some "a.png") true true).snd.meta
      = [⟨"k", "u", "f"⟩] ∧
    (uploadApi ⟨[⟨"k", "u", "f"⟩], ["f"]⟩ 3 none none (some "a.png") true true).snd.blob
      = multerFilename 3 none "a.png" :: ["f"] :=
  C7_missing_key_validation ⟨[⟨"k", "u", "f"⟩], ["f"]⟩ 3 none none "a.png"
    true true rfl

/-- C8.  Deleting a key with no record is the identity on the combined
store state while still responding success with the key. -/
theorem C8_delete_absent_identity (st : StoreState) (k : String) (unlinkOk : Bool)
    (habs : findOne st.meta k = none) :
    deleteApi st k unlinkOk = (DeleteResult.ok k, st) := by
  simp only [deleteApi, findOneAndDelete_eq_of_findOne_none st.meta k habs]

/-- C8 witness at a store holding an unrelated key. -/
theorem C8_delete_absent_identity_witness :
    deleteApi ⟨[⟨"b", "u", "f"⟩], ["f"]⟩ "a" true
      = (DeleteResult.ok "a", ⟨[⟨"b", "u", "f"⟩], ["f"]⟩) :=
  C8_delete_absent_identity ⟨[⟨"b", "u", "f"⟩], ["f"]⟩ "a" true rfl

/-- C9.  When the key field is visible at filename generation time, the
key component is embedded into the generated filename verbatim, with no
character filtering: only the original name goes through sanitization. -/
theorem C9_key_embedded_verbatim (now : Nat) (k orig : String) (hk : k ≠ "") :
    multerFilename now (some k) orig
      = toString now ++ "_" ++ k ++ "_" ++ sanitizeName orig := by
  simp [multerFilename, putFileRef, jsTruthy, hk]

/-- C9 witness: a key holding a slash and a space passes through
unchanged while the original name is sanitized. -/
theorem C9_key_embedded_verbatim_witness :
    multerFilename 7 (some "a/b c") "x.png"
      = toString 7 ++ "_" ++ "a/b c" ++ "_" ++ sanitizeName "x.png" :=
  C9_key_embedded_verbatim 7 "a/b c" "x.png" (by decide)

/-- C10.  When the key field is not yet available at filename generation
time the filename uses the literal image component, and the file is
written to the uploads directory before the handler validates the key:
whatever the handler later sees as the key field and however the rest of
the request goes, the generated file is in the directory afterwards. -/
theorem C10_default_image_and_write_before_validation (st : StoreState) (now : Nat)
    (bodyKey : Option String) (orig : String) (upsertOk unlinkOk : Bool) :
    multerFilename now none orig
      = toString now ++ "_" ++ "image" ++ "_" ++ sanitizeName orig ∧
    multerFilename now none orig
      ∈ (uploadApi st now none bodyKey (some orig) upsertOk unlinkOk).snd.blob := by
  refine ⟨rfl, ?_⟩
  cases ht : jsTruthy bodyKey with
  | false =>
    simp only [uploadApi, ht, Bool.false_eq_true, if_false]
    exact List.mem_cons_self _ _
  | true =>
    simp only [uploadApi, ht, if_true]
    cases hfind : findOne st.meta (bodyKey.getD "") with
    | none =>
      cases upsertOk <;> simp only [Bool.false_eq_true, if_false, if_true] <;>
        exact List.mem_cons_self _ _
    | some ex =>
      by_cases hg : ex.filename ≠ "" ∧ ex.filename ≠ multerFilename now none orig
      · have hkeep : multerFilename now none orig
            ∈ removeFile (multerFilename now none orig :: st.blob) ex.filename unlinkOk :=
          mem_removeFile_of_ne _ _ _ _ (fun h => hg.2 h.symm) (List.mem_cons_self _ _)
        cases upsertOk <;>
          simp only [Bool.false_eq_true, if_false, if_true, if_pos hg] <;>
          exact hkeep
      · cases upsertOk <;>
          simp only [Bool.false_eq_true, if_false, if_true, if_neg hg] <;>
          exact List.mem_cons_self _ _

end Vgs
